import Mathlib

/-!
Verification of the pixltsnorm bridging/chaining engine against its
natural-language specification.  The repository snapshot ships only
documentation (README, usage guides, CI configuration); the Python modules
`harmonize.py`, `dataframe_harmonize.py` and `utils.py` are not present, so
every definition below is modelled from the specification's contracts
(sections 4.1-4.6 of the spec) and marked as such.

Numeric values are embedded as rationals; a missing observation (NaN in the
source) is `Option.none`, and the undefined-transform sentinel (NaN slope and
NaN intercept) is `Option.none` at the `Transform` level, so a transform is
fully defined or fully undefined by construction.
-/

namespace Pixltsnorm

/-- A single observation: `none` models the missing-value (NaN) sentinel. -/
abbrev Val := Option ℚ

/-- Modelled from the spec: a Sequence is an ordered numeric array that may
contain missing values. -/
abbrev Sequence := List Val

/-- Modelled from the spec: a Transform is a pair (slope, intercept) with
`target = slope * source + intercept`; identity is (1, 0). -/
structure Transform where
  slope : ℚ
  intercept : ℚ
deriving DecidableEq

/-- The identity transform (1.0, 0.0). -/
def Transform.id : Transform := ⟨1, 0⟩

/-- Modelled from the spec: composition of transforms. Given the A→B
transform (s1, i1) and the B→target transform (s2, i2), the composed
A→target transform is (s1*s2, s2*i1 + i2). -/
def Transform.comp (p q : Transform) : Transform :=
  ⟨p.slope * q.slope, q.slope * p.intercept + q.intercept⟩

/-- Composition lifted to possibly-undefined transforms: composing with an
undefined transform is undefined (never silently identity). -/
def composeOpt (p q : Option Transform) : Option Transform :=
  match p, q with
  | some a, some b => some (a.comp b)
  | _, _ => none

/-- Validity of one index position for a pair of observations: both present
and the absolute difference within the outlier threshold. -/
def validPair (th : ℚ) : Val × Val → Bool
  | (some x, some y) => |x - y| ≤ th
  | _ => false

/-- Modelled from the spec (4.1 Outlier Filter): `filter_pair(a, b, threshold)`
marks index i invalid when either value is missing or `|a[i] - b[i]|` exceeds
the threshold, and returns the two sequences restricted to the valid indices
(original order) together with the boolean keep-mask of the original length. -/
def filter_pair (a b : Sequence) (th : ℚ) : List ℚ × List ℚ × List Bool :=
  let ps := a.zip b
  ((ps.filter (validPair th)).filterMap Prod.fst,
   (ps.filter (validPair th)).filterMap Prod.snd,
   ps.map (validPair th))

/-- Sum of a list of rationals. -/
def listSum (l : List ℚ) : ℚ := l.foldr (· + ·) 0

/-- Arithmetic mean (0 on the empty list, where it is never consulted). -/
def mean (l : List ℚ) : ℚ := listSum l / l.length

/-- Sum of products of centred deviations; the shared 1/n factors of the
covariance and the variance cancel in the OLS slope, so sums suffice. -/
def covar (x y : List ℚ) : ℚ :=
  listSum ((x.zip y).map fun p => (p.1 - mean x) * (p.2 - mean y))

/-- Centred sum of squares of a sample. -/
def variance (x : List ℚ) : ℚ := covar x x

/-- Modelled from the spec (4.2 Linear Fitter): ordinary least squares on
(x, y); fewer than 2 points or zero variance in x yields the undefined
sentinel (per the spec's error taxonomy, insufficient data never raises);
the degenerate case x = y short-circuits to the identity transform without
running the regression. -/
def fit_linear (x y : List ℚ) : Option Transform :=
  if x.length < 2 ∨ variance x = 0 then none
  else if x = y then some Transform.id
  else
    let s := covar x y / variance x
    some ⟨s, mean y - s * mean x⟩

/-- Modelled from the spec (4.4 Pairwise Bridger, linear method): outlier
filtering followed by the linear fit. -/
def pairTransform (src tgt : Sequence) (th : ℚ) : Option Transform :=
  let r := filter_pair src tgt th
  fit_linear r.1 r.2.1

/-- Transforms for indices left of the target, by distance: `tLeft d` is the
transform of index `target - d` onto the target.  Distance 0 is the target
itself (identity); each step outward bridges the adjacent pair and composes
with the neighbour's transform onto the target. -/
def tLeft (seqs : List Sequence) (th : ℚ) (target : ℕ) : ℕ → Option Transform
  | 0 => some Transform.id
  | d + 1 =>
      composeOpt
        (pairTransform (seqs.getD (target - d - 1) []) (seqs.getD (target - d) []) th)
        (tLeft seqs th target d)

/-- Transforms for indices right of the target, by distance: `tRight d` is
the transform of index `target + d` onto the target. -/
def tRight (seqs : List Sequence) (th : ℚ) (target : ℕ) : ℕ → Option Transform
  | 0 => some Transform.id
  | d + 1 =>
      composeOpt
        (pairTransform (seqs.getD (target + d + 1) []) (seqs.getD (target + d) []) th)
        (tRight seqs th target d)

/-- Modelled from the spec (4.5 Chain Composer): the transform of sequence
`i` onto the target, composed outward from the target pivot. -/
def transformToTarget (seqs : List Sequence) (th : ℚ) (target i : ℕ) :
    Option Transform :=
  if i ≤ target then tLeft seqs th target (target - i)
  else tRight seqs th target (i - target)

/-- Modelled from the spec (4.5 Chain Composer): `chain` returns one
transform per input sequence, each mapping that sequence onto the designated
target's scale. -/
def chain (seqs : List Sequence) (target : ℕ) (th : ℚ) :
    List (Option Transform) :=
  (List.range seqs.length).map (transformToTarget seqs th target)

/-- The observations of one sequence falling on phase `k` of the period. -/
def phaseVals (s : List ℚ) (period k : ℕ) : List ℚ :=
  ((List.range s.length).filter (fun i => i % period = k)).map (fun i => s.getD i 0)

/-- Modelled from the spec (4.3 Seasonal Decomposer): the SeasonalComponent
maps each phase 0..period-1 to the mean value of the series at that phase. -/
def seasonalComponent (s : List ℚ) (period : ℕ) : List ℚ :=
  (List.range period).map (fun k => mean (phaseVals s period k))

/-- Subtracting the phase mean from every observation yields the
deseasonalized residual series. -/
def deseason (s : List ℚ) (period : ℕ) : List ℚ :=
  (List.range s.length).map
    (fun i => s.getD i 0 - (seasonalComponent s period).getD (i % period) 0)

/-- Modelled from the spec (4.3 Seasonal Decomposer): `fit_seasonal` requires
length at least 2*period, otherwise it returns the undefined sentinel with
empty components; otherwise it deseasonalizes both series and delegates the
residuals to the Linear Fitter. -/
def fit_seasonal (x y : List ℚ) (period : ℕ) :
    Option Transform × List ℚ × List ℚ :=
  if x.length < 2 * period then (none, [], [])
  else (fit_linear (deseason x period) (deseason y period),
        seasonalComponent x period, seasonalComponent y period)

/-- Modelled from the spec (4.3 apply-time contract): applying a seasonal-mode
result to a source value at time index t deseasonalizes the input with the
source phase mean, applies the linear map, then re-seasonalizes with the
target's phase mean at t.  The phase index t is a required argument. -/
def applySeasonal (tr : Transform) (cx cy : List ℚ) (period : ℕ)
    (xv : ℚ) (t : ℕ) : ℚ :=
  let deseasoned := xv - cx.getD (t % period) 0
  let mapped := tr.slope * deseasoned + tr.intercept
  mapped + cy.getD (t % period) 0

/-- Modelled from the spec (4.4 Pairwise Bridger, seasonal method): outlier
filtering followed by the seasonal fit. -/
def pairSeasonal (src tgt : Sequence) (th : ℚ) (period : ℕ) :
    Option Transform × List ℚ × List ℚ :=
  let r := filter_pair src tgt th
  fit_seasonal r.1 r.2.1 period

/-- The chain body once the configuration has been validated: linear mode
runs the Chain Composer; seasonal mode (exactly two sequences) bridges the
non-target sequence directly onto the target. -/
def chainRun (seqs : List Sequence) (target : ℕ) (method : String)
    (th : ℚ) (period : Option ℕ) : List (Option Transform) :=
  if method = "linear" then chain seqs target th
  else
    (List.range seqs.length).map
      (fun i => if i = target then some Transform.id
                else (pairSeasonal (seqs.getD i []) (seqs.getD target []) th
                        (period.getD 0)).1)

/-- Modelled from the spec (4.5 precondition and 7 Configuration error): the
chain entry point validates the configuration before any fitting begins; an
invalid method name, an out-of-range target index, seasonal mode with a
sequence count other than 2, or a missing/invalid period in seasonal mode is
raised to the caller as an error carrying no partial result. -/
def chainChecked (seqs : List Sequence) (target : ℕ) (method : String)
    (th : ℚ) (period : Option ℕ) :
    Except String (List (Option Transform)) :=
  if method ≠ "linear" ∧ method ≠ "seasonal_decompose" then
    .error "invalid method name"
  else if seqs.length ≤ target then
    .error "target_index out of range"
  else if method = "seasonal_decompose" ∧ seqs.length ≠ 2 then
    .error "seasonal mode requires exactly 2 sequences"
  else if method = "seasonal_decompose" ∧
          (match period with | none => true | some p => decide (p < 2)) = true then
    .error "missing or invalid period for seasonal mode"
  else
    .ok (chainRun seqs target method th period)

/-- Modelled from the spec (4.6 Row-wise Driver): the Chain Composer is
applied independently to each row of the batch, in the input's original
order; a fit failure in one row is recorded as the undefined sentinel there
and does not abort the other rows. -/
def chain_rows (table : List (List Sequence)) (target : ℕ) (th : ℚ) :
    List (List (Option Transform)) :=
  table.map (fun row => chain row target th)

/-- Modelled from the spec (4.6 with the 4.5 precondition): the row-wise
entry point validates the configuration against the row shape before any
row is processed. -/
def chain_rows_checked (table : List (List Sequence)) (target : ℕ)
    (method : String) (th : ℚ) (period : Option ℕ) :
    Except String (List (List (Option Transform))) :=
  if method ≠ "linear" ∧ method ≠ "seasonal_decompose" then
    .error "invalid method name"
  else if (table.headD []).length ≤ target then
    .error "target_index out of range"
  else if method = "seasonal_decompose" ∧ (table.headD []).length ≠ 2 then
    .error "seasonal mode requires exactly 2 sequences"
  else if method = "seasonal_decompose" ∧
          (match period with | none => true | some p => decide (p < 2)) = true then
    .error "missing or invalid period for seasonal mode"
  else
    .ok (table.map (fun row => chainRun row target method th period))

/-- Selection of a sequence's present values by a boolean keep-mask, in
original order: the spec-side description of what the Outlier Filter's
filtered outputs are. -/
def maskSelect (s : Sequence) (m : List Bool) : List ℚ :=
  (s.zip m).filterMap (fun p => if p.2 then p.1 else none)

/-! ## Helper lemmas -/

theorem composeOpt_none_left (q : Option Transform) : composeOpt none q = none := by
  cases q <;> rfl

theorem composeOpt_none_right (p : Option Transform) : composeOpt p none = none := by
  cases p <;> rfl

theorem Transform.comp_id (p : Transform) : p.comp Transform.id = p := by
  simp [Transform.comp, Transform.id]

theorem composeOpt_some_id (p : Option Transform) :
    composeOpt p (some Transform.id) = p := by
  cases p with
  | none => rfl
  | some a => simp [composeOpt, Transform.comp_id]

theorem transformToTarget_self (seqs : List Sequence) (th : ℚ) (target : ℕ) :
    transformToTarget seqs th target target = some Transform.id := by
  simp [transformToTarget, tLeft]

theorem transformToTarget_lt (seqs : List Sequence) (th : ℚ) (target i : ℕ)
    (h : i < target) :
    transformToTarget seqs th target i =
      composeOpt (pairTransform (seqs.getD i []) (seqs.getD (i + 1) []) th)
        (transformToTarget seqs th target (i + 1)) := by
  have h1 : i ≤ target := le_of_lt h
  have h2 : i + 1 ≤ target := h
  have h3 : target - i = (target - (i + 1)) + 1 := by omega
  have e1 : target - (target - (i + 1)) - 1 = i := by omega
  have e2 : target - (target - (i + 1)) = i + 1 := by omega
  simp only [transformToTarget, if_pos h1, if_pos h2, h3, tLeft, e1, e2]
  have e3 : i + 1 - 1 = i := by omega
  rw [e3]

theorem transformToTarget_gt (seqs : List Sequence) (th : ℚ) (target i : ℕ)
    (h : target < i) :
    transformToTarget seqs th target i =
      composeOpt (pairTransform (seqs.getD i []) (seqs.getD (i - 1) []) th)
        (transformToTarget seqs th target (i - 1)) := by
  have h1 : ¬ i ≤ target := by omega
  have h3 : i - target = (i - 1 - target) + 1 := by omega
  have e1 : target + (i - 1 - target) + 1 = i := by omega
  have e2 : target + (i - 1 - target) = i - 1 := by omega
  by_cases h4 : i - 1 ≤ target
  · have h5 : i - 1 = target := by omega
    have h6 : i - 1 - target = 0 := by omega
    simp only [transformToTarget, if_neg h1, if_pos h4, h3, h6, tRight, e1, e2]
    have e4 : i = target + 1 := by omega
    subst e4
    simp [tLeft]
  · simp only [transformToTarget, if_neg h1, if_neg h4, h3, tRight, e1, e2]
    have e5 : i - 1 + 1 = i := by omega
    rw [e5]

theorem transformToTarget_none_below (seqs : List Sequence) (th : ℚ)
    (target j : ℕ) (hj : j ≤ target)
    (hnone : transformToTarget seqs th target j = none) :
    ∀ i, i ≤ j → transformToTarget seqs th target i = none := by
  intro i hij
  have key : ∀ d, transformToTarget seqs th target (j - d) = none := by
    intro d
    induction d with
    | zero => simpa using hnone
    | succ d ih =>
        by_cases hcut : j - (d + 1) = j - d
        · rw [hcut]; exact ih
        · have hlt : j - (d + 1) < target := by omega
          rw [transformToTarget_lt seqs th target _ hlt]
          have : j - (d + 1) + 1 = j - d := by omega
          rw [this, ih, composeOpt_none_right]
  have : i = j - (j - i) := by omega
  rw [this]
  exact key (j - i)

theorem transformToTarget_none_above (seqs : List Sequence) (th : ℚ)
    (target j : ℕ) (hj : target ≤ j)
    (hnone : transformToTarget seqs th target j = none) :
    ∀ i, j ≤ i → transformToTarget seqs th target i = none := by
  intro i hij
  have key : ∀ d, transformToTarget seqs th target (j + d) = none := by
    intro d
    induction d with
    | zero => simpa using hnone
    | succ d ih =>
        have hgt : target < j + (d + 1) := by omega
        rw [transformToTarget_gt seqs th target _ hgt]
        have : j + (d + 1) - 1 = j + d := by omega
        rw [this, ih, composeOpt_none_right]
  have : i = j + (i - j) := by omega
  rw [this]
  exact key (i - j)

theorem tLeft_congr (seqs seqs' : List Sequence) (th : ℚ) (target : ℕ) :
    ∀ d, d ≤ target →
      (∀ k, target - d ≤ k → k ≤ target → seqs.getD k [] = seqs'.getD k []) →
      tLeft seqs th target d = tLeft seqs' th target d := by
  intro d
  induction d with
  | zero => intro _ _; rfl
  | succ d ih =>
      intro hd hagree
      have h1 : seqs.getD (target - d - 1) [] = seqs'.getD (target - d - 1) [] :=
        hagree _ (by omega) (by omega)
      have h2 : seqs.getD (target - d) [] = seqs'.getD (target - d) [] :=
        hagree _ (by omega) (by omega)
      have h3 : tLeft seqs th target d = tLeft seqs' th target d :=
        ih (by omega) (fun k hk1 hk2 => hagree k (by omega) hk2)
      simp only [tLeft, h1, h2, h3]

theorem transformToTarget_congr_above (seqs seqs' : List Sequence) (th : ℚ)
    (target i : ℕ) (hi : i ≤ target)
    (hagree : ∀ k, i ≤ k → k ≤ target → seqs.getD k [] = seqs'.getD k []) :
    transformToTarget seqs th target i = transformToTarget seqs' th target i := by
  simp only [transformToTarget, if_pos hi]
  exact tLeft_congr seqs seqs' th target (target - i) (by omega)
    (fun k hk1 hk2 => hagree k (by omega) hk2)

theorem chain_getElem? (seqs : List Sequence) (target : ℕ) (th : ℚ) (i : ℕ)
    (hi : i < seqs.length) :
    (chain seqs target th)[i]? = some (transformToTarget seqs th target i) := by
  simp [chain, List.getElem?_map, List.getElem?_range, hi]

theorem chain_length (seqs : List Sequence) (target : ℕ) (th : ℚ) :
    (chain seqs target th).length = seqs.length := by
  simp [chain]

theorem filter_fst_eq_maskSelect (a : Sequence) (th : ℚ) :
    ∀ b : Sequence,
      ((a.zip b).filter (validPair th)).filterMap Prod.fst =
        maskSelect a ((a.zip b).map (validPair th)) := by
  induction a with
  | nil => intro b; rfl
  | cons v a ih =>
      intro b
      cases b with
      | nil => rfl
      | cons w b =>
          by_cases hv : validPair th (v, w) = true
          · have hx : ∃ x, v = some x := by
              cases v with
              | none => simp [validPair] at hv
              | some x => exact ⟨x, rfl⟩
            obtain ⟨x, rfl⟩ := hx
            simp [maskSelect, List.filter_cons, hv, ih b]
          · simp [maskSelect, List.filter_cons, hv, ih b]

theorem filter_snd_eq_maskSelect (a : Sequence) (th : ℚ) :
    ∀ b : Sequence,
      ((a.zip b).filter (validPair th)).filterMap Prod.snd =
        maskSelect b ((a.zip b).map (validPair th)) := by
  induction a with
  | nil => intro b; simp [maskSelect]
  | cons v a ih =>
      intro b
      cases b with
      | nil => rfl
      | cons w b =>
          by_cases hv : validPair th (v, w) = true
          · have hy : ∃ y, w = some y := by
              cases v with
              | none => simp [validPair] at hv
              | some x =>
                  cases w with
                  | none => simp [validPair] at hv
                  | some y => exact ⟨y, rfl⟩
            obtain ⟨y, rfl⟩ := hy
            simp [maskSelect, List.filter_cons, hv, ih b]
          · simp [maskSelect, List.filter_cons, hv, ih b]

theorem zip_self_eq_map (S : Sequence) : S.zip S = S.map (fun v => (v, v)) := by
  induction S with
  | nil => rfl
  | cons v s ih => simp [ih]

theorem filter_pair_diag (S : Sequence) (th : ℚ) :
    (filter_pair S S th).2.1 = (filter_pair S S th).1 := by
  simp only [filter_pair, zip_self_eq_map]
  induction S with
  | nil => rfl
  | cons v s ih =>
      simp only [List.map_cons, List.filter_cons]
      by_cases hv : validPair th (v, v) = true
      · simp only [hv, if_pos, List.filterMap_cons]
        cases v with
        | none => simp [validPair] at hv
        | some x => simpa using ih
      · simpa [hv] using ih

theorem maskSelect_eq_nil (s : Sequence) (m : List Bool)
    (h : ∀ x ∈ m, x = false) : maskSelect s m = [] := by
  rw [maskSelect, List.filterMap_eq_nil_iff]
  intro p hp
  have hm : p.2 ∈ m := (List.of_mem_zip hp).2
  rw [h p.2 hm]
  rfl

/-! ## Claim theorems -/

/-- C1: the Chain Composer computes each non-adjacent sequence's transform
onto the target by composing the adjacent pairwise transform with the
neighbour's transform onto the target, where composing an A→B transform
(s1, i1) with a B→target transform (s2, i2) gives (s1*s2, s2*i1 + i2); in
particular for three sequences A, B, C with target C, the A→C transform is
the algebraic composition of the A→B and B→C transforms. -/
theorem chain_composes_pairwise_transforms :
    (∀ s1 i1 s2 i2 : ℚ,
       Transform.comp ⟨s1, i1⟩ ⟨s2, i2⟩ = ⟨s1 * s2, s2 * i1 + i2⟩) ∧
    (∀ (seqs : List Sequence) (th : ℚ) (target i : ℕ), i < target →
       transformToTarget seqs th target i =
         composeOpt (pairTransform (seqs.getD i []) (seqs.getD (i + 1) []) th)
           (transformToTarget seqs th target (i + 1))) ∧
    (∀ (seqs : List Sequence) (th : ℚ) (target i : ℕ), target < i →
       transformToTarget seqs th target i =
         composeOpt (pairTransform (seqs.getD i []) (seqs.getD (i - 1) []) th)
           (transformToTarget seqs th target (i - 1))) ∧
    (∀ (A B C : Sequence) (th : ℚ),
       (chain [A, B, C] 2 th)[0]? =
         some (composeOpt (pairTransform A B th) (pairTransform B C th))) := by
  refine ⟨fun s1 i1 s2 i2 => rfl,
          fun seqs th target i h => transformToTarget_lt seqs th target i h,
          fun seqs th target i h => transformToTarget_gt seqs th target i h,
          ?_⟩
  intro A B C th
  rw [chain_getElem? [A, B, C] 2 th 0 (by simp)]
  rw [transformToTarget_lt [A, B, C] th 2 0 (by omega)]
  rw [transformToTarget_lt [A, B, C] th 2 1 (by omega)]
  rw [transformToTarget_self]
  rw [composeOpt_some_id]
  rfl

/-- Witness for C1: the composition recurrence instantiated on a concrete
two-sequence chain, and the three-sequence composition at concrete data. -/
theorem chain_composes_pairwise_transforms_witness :
    transformToTarget [[some (1 : ℚ), some 2], [some 1, some 3]] 5 1 0 =
      composeOpt
        (pairTransform [some (1 : ℚ), some 2] [some 1, some 3] 5)
        (transformToTarget [[some (1 : ℚ), some 2], [some 1, some 3]] 5 1 1) ∧
    (chain [[some (0 : ℚ), some 1], [some 0, some 2], [some 0, some 4]] 2 10)[0]? =
      some (composeOpt
        (pairTransform [some (0 : ℚ), some 1] [some 0, some 2] 10)
        (pairTransform [some (0 : ℚ), some 2] [some 0, some 4] 10)) :=
  ⟨chain_composes_pairwise_transforms.2.1
     [[some 1, some 2], [some 1, some 3]] 5 1 0 (by decide),
   chain_composes_pairwise_transforms.2.2.2
     [some 0, some 1] [some 0, some 2] [some 0, some 4] 10⟩

/-- C6: the transform stored for the designated target sequence is always
the identity (1.0, 0.0); in particular a one-sequence chain with
target_index 0 yields the identity transform. -/
theorem chain_target_is_identity :
    (∀ (seqs : List Sequence) (target : ℕ) (th : ℚ), target < seqs.length →
       (chain seqs target th)[target]? = some (some Transform.id)) ∧
    (∀ (S : Sequence) (th : ℚ), chain [S] 0 th = [some Transform.id]) := by
  constructor
  · intro seqs target th h
    rw [chain_getElem? seqs target th target h, transformToTarget_self]
  · intro S th
    simp [chain, List.range_succ, transformToTarget, tLeft]

/-- Witness for C6: a concrete chain call whose target slot holds the
identity transform. -/
theorem chain_target_is_identity_witness :
    (chain [[some (1 : ℚ)], [some 2]] 1 3)[1]? = some (some Transform.id) :=
  chain_target_is_identity.1 [[some 1], [some 2]] 1 3 (by decide)

/-- C2: an undefined adjacent pairwise fit makes every transform on the far
side of the break (away from the target) undefined — never silently
identity — while the transform of any sequence strictly between the break
and the target depends only on the sequences on the target side of the
break; the spec's four-sequence scenario with a break between sequences 1
and 2 and target 3 leaves sequences 2 and 3 defined. -/
theorem chain_undefined_propagates :
    (∀ (seqs : List Sequence) (th : ℚ) (target j : ℕ), j < target →
       pairTransform (seqs.getD j []) (seqs.getD (j + 1) []) th = none →
       ∀ i, i ≤ j → transformToTarget seqs th target i = none) ∧
    (∀ (seqs : List Sequence) (th : ℚ) (target j : ℕ), target < j →
       pairTransform (seqs.getD j []) (seqs.getD (j - 1) []) th = none →
       ∀ i, j ≤ i → transformToTarget seqs th target i = none) ∧
    (∀ (seqs seqs' : List Sequence) (th : ℚ) (target j i : ℕ),
       j < i → i ≤ target →
       (∀ k, j < k → k ≤ target → seqs.getD k [] = seqs'.getD k []) →
       transformToTarget seqs th target i = transformToTarget seqs' th target i) ∧
    (chain [[some 0, some 2, none, none], [some 0, some 1, none, none],
            [none, none, some 0, some 1], [none, none, some 0, some 2]] 3 10 =
       [none, none, some ⟨2, 0⟩, some Transform.id]) := by
  refine ⟨?_, ?_, ?_, ?_⟩
  · intro seqs th target j hj hpair i hij
    have hnone : transformToTarget seqs th target j = none := by
      rw [transformToTarget_lt seqs th target j hj, hpair, composeOpt_none_left]
    exact transformToTarget_none_below seqs th target j (le_of_lt hj) hnone i hij
  · intro seqs th target j hj hpair i hij
    have hnone : transformToTarget seqs th target j = none := by
      rw [transformToTarget_gt seqs th target j hj, hpair, composeOpt_none_left]
    exact transformToTarget_none_above seqs th target j (le_of_lt hj) hnone i hij
  · intro seqs seqs' th target j i hji hit hagree
    exact transformToTarget_congr_above seqs seqs' th target i hit
      (fun k hk1 hk2 => hagree k (by omega) hk2)
  · norm_num [chain, List.range_succ, transformToTarget, tLeft, pairTransform,
      filter_pair, validPair, List.filter, List.filterMap_cons, fit_linear,
      variance, covar, mean, listSum, composeOpt, Transform.comp, Transform.id]

/-- Witness for C2: in the four-sequence scenario with target 3 and an
undefined bridge between sequences 1 and 2, sequences 0 and 1 both carry
the undefined transform. -/
theorem chain_undefined_propagates_witness :
    transformToTarget [[some 0, some 2, none, none], [some 0, some 1, none, none],
      [none, none, some 0, some 1], [none, none, some 0, some 2]] 10 3 0 = none ∧
    transformToTarget [[some 0, some 2, none, none], [some 0, some 1, none, none],
      [none, none, some 0, some 1], [none, none, some 0, some 2]] 10 3 1 = none :=
  ⟨chain_undefined_propagates.1
     [[some 0, some 2, none, none], [some 0, some 1, none, none],
      [none, none, some 0, some 1], [none, none, some 0, some 2]] 10 3 1
     (by omega)
     (by norm_num [pairTransform, filter_pair, validPair, List.filter,
           List.filterMap_cons, fit_linear, variance, covar, mean, listSum,
           List.getD])
     0 (by omega),
   chain_undefined_propagates.1
     [[some 0, some 2, none, none], [some 0, some 1, none, none],
      [none, none, some 0, some 1], [none, none, some 0, some 2]] 10 3 1
     (by omega)
     (by norm_num [pairTransform, filter_pair, validPair, List.filter,
           List.filterMap_cons, fit_linear, variance, covar, mean, listSum,
           List.getD])
     1 (by omega)⟩

/-- C3: on equal-length filtered sequences with at least 2 points, non-zero
variance in x, and x not identical to y, fit_linear returns the ordinary
least squares transform slope = Cov(x,y)/Var(x) and
intercept = mean(y) − slope·mean(x); in the spec's scenario with
s0 = [1,2,3,4,5], s1 = [2,4,6,8,10], target_index 1 and threshold 1000 the
s0→target transform is (2, 0) and the target transform is the identity. -/
theorem fit_linear_is_ols :
    (∀ x y : List ℚ, x.length = y.length → 2 ≤ x.length → variance x ≠ 0 →
       x ≠ y →
       fit_linear x y =
         some ⟨covar x y / variance x,
               mean y - covar x y / variance x * mean x⟩) ∧
    (chain [[some 1, some 2, some 3, some 4, some 5],
            [some 2, some 4, some 6, some 8, some 10]] 1 1000 =
       [some ⟨2, 0⟩, some Transform.id]) := by
  constructor
  · intro x y _ h2 hv hxy
    have hcond : ¬(x.length < 2 ∨ variance x = 0) := by
      push_neg
      exact ⟨by omega, hv⟩
    simp only [fit_linear, if_neg hcond, if_neg hxy]
  · norm_num [chain, List.range_succ, transformToTarget, tLeft, pairTransform,
      filter_pair, validPair, List.filter, List.filterMap_cons, fit_linear,
      variance, covar, mean, listSum, composeOpt, Transform.comp, Transform.id]

/-- Witness for C3: the OLS formula instantiated at x = [1,2,3],
y = [2,4,7]. -/
theorem fit_linear_is_ols_witness :
    fit_linear [1, 2, 3] [2, 4, 7] =
      some ⟨covar [1, 2, 3] [2, 4, 7] / variance [1, 2, 3],
            mean [2, 4, 7] -
              covar [1, 2, 3] [2, 4, 7] / variance [1, 2, 3] * mean [1, 2, 3]⟩ :=
  fit_linear_is_ols.1 [1, 2, 3] [2, 4, 7] rfl (by norm_num)
    (by norm_num [variance, covar, mean, listSum])
    (by norm_num)

/-- C5: a fit with insufficient data — fewer than 2 valid paired points or
zero variance in x for the linear fitter, fewer than 2·period points for
the seasonal fitter — returns the undefined Transform sentinel (and, being
a total function into an option type, cannot raise or return a partially
defined pair). -/
theorem fit_insufficient_data_undefined :
    (∀ x y : List ℚ, x.length < 2 ∨ variance x = 0 → fit_linear x y = none) ∧
    (∀ (x y : List ℚ) (period : ℕ), x.length < 2 * period →
       fit_seasonal x y period = (none, [], [])) := by
  constructor
  · intro x y h
    simp only [fit_linear, if_pos h]
  · intro x y p h
    simp only [fit_seasonal, if_pos h]

/-- Witness for C5: the empty fit and a too-short seasonal fit both return
the undefined sentinel. -/
theorem fit_insufficient_data_undefined_witness :
    fit_linear [] [] = none ∧ fit_seasonal [] [] 1 = (none, [], []) :=
  ⟨fit_insufficient_data_undefined.1 [] [] (Or.inl (by norm_num)),
   fit_insufficient_data_undefined.2 [] [] 1 (by norm_num)⟩

/-- C10 counterexample: for the constant pair x = y = [5, 5] the filtered
source equals the filtered target at every point, yet the Linear Fitter
returns the undefined sentinel rather than the identity, because the
minimum-data requirement (non-zero variance) is checked before the
degenerate-case short-circuit; consequently chain([S,S], target_index=1)
with the constant S = [5, 5] marks sequence 0 undefined, not (1.0, 0.0). -/
theorem fit_linear_selfpair_counterexample :
    fit_linear [5, 5] [5, 5] = none ∧
    fit_linear [5, 5] [5, 5] ≠ some Transform.id ∧
    (chain [[some 5, some 5], [some 5, some 5]] 1 1)[0]? = some none := by
  refine ⟨?_, ?_, ?_⟩
  · norm_num [fit_linear, variance, covar, mean, listSum]
  · norm_num [fit_linear, variance, covar, mean, listSum]
    exact fun h => Option.noConfusion h
  · norm_num [chain, List.range_succ, transformToTarget, tLeft, pairTransform,
      filter_pair, validPair, List.filter, List.filterMap_cons, fit_linear,
      variance, covar, mean, listSum, composeOpt]

/-- C10 (amended): when the filtered pair also passes the minimum-data
requirement — at least 2 valid paired points with non-zero variance — equal
filtered source and target short-circuit to the exact identity transform
(1.0, 0.0); consequently chain([S,S], target_index=1) yields exactly
(1.0, 0.0) for sequence 0 whenever the self-overlap of S passes that
requirement. -/
theorem fit_linear_selfpair_identity :
    (∀ x y : List ℚ, 2 ≤ x.length → variance x ≠ 0 → x = y →
       fit_linear x y = some Transform.id) ∧
    (∀ (S : Sequence) (th : ℚ),
       2 ≤ (filter_pair S S th).1.length →
       variance (filter_pair S S th).1 ≠ 0 →
       (chain [S, S] 1 th)[0]? = some (some Transform.id)) := by
  have hself : ∀ x y : List ℚ, 2 ≤ x.length → variance x ≠ 0 → x = y →
      fit_linear x y = some Transform.id := by
    intro x y h2 hv hxy
    have hcond : ¬(x.length < 2 ∨ variance x = 0) := by
      push_neg
      exact ⟨by omega, hv⟩
    simp only [fit_linear, if_neg hcond, if_pos hxy]
  refine ⟨hself, ?_⟩
  intro S th h2 hv
  rw [chain_getElem? [S, S] 1 th 0 (by simp)]
  rw [transformToTarget_lt [S, S] th 1 0 (by omega)]
  rw [transformToTarget_self, composeOpt_some_id]
  have hpair : pairTransform S S th = some Transform.id := by
    simp only [pairTransform]
    rw [filter_pair_diag S th]
    exact hself _ _ h2 hv rfl
  have hget0 : ([S, S] : List Sequence).getD 0 [] = S := rfl
  have hget1 : ([S, S] : List Sequence).getD 1 [] = S := rfl
  rw [hget0, hget1, hpair]

/-- Witness for C10 (amended): S = [1, 2] self-bridges to the exact
identity through the chain. -/
theorem fit_linear_selfpair_identity_witness :
    (chain [[some 1, some 2], [some 1, some 2]] 1 1)[0]? =
      some (some Transform.id) :=
  fit_linear_selfpair_identity.2 [some 1, some 2] 1
    (by norm_num [filter_pair, validPair, List.filter, List.filterMap_cons])
    (by norm_num [filter_pair, validPair, List.filter, List.filterMap_cons,
          variance, covar, mean, listSum])

/-- C4: for equal-length sequences, filter_pair marks an index invalid
exactly when either value is missing or the absolute difference exceeds the
threshold, returns the two sequences restricted to the valid indices in
original order together with the mask of the original length, returns two
empty sequences (without error) when every index is invalid, and on
A = [0,1,2,100], B = [0,1,2,3] with threshold 5 excludes the pair (100, 3)
so that the subsequent fit is exactly (1.0, 0.0). -/
theorem filter_pair_contract :
    (∀ (a b : Sequence) (th : ℚ), a.length = b.length →
       ((filter_pair a b th).2.2.length = a.length ∧
        (∀ i, i < a.length →
           ((filter_pair a b th).2.2.getD i false = false ↔
             (a.getD i none = none ∨ b.getD i none = none ∨
              ∃ x y, a.getD i none = some x ∧ b.getD i none = some y ∧
                th < |x - y|))) ∧
        (filter_pair a b th).1 = maskSelect a (filter_pair a b th).2.2 ∧
        (filter_pair a b th).2.1 = maskSelect b (filter_pair a b th).2.2 ∧
        ((∀ m ∈ (filter_pair a b th).2.2, m = false) →
           (filter_pair a b th).1 = [] ∧ (filter_pair a b th).2.1 = []))) ∧
    (filter_pair [some 0, some 1, some 2, some 100]
        [some 0, some 1, some 2, some 3] 5 =
       ([0, 1, 2], [0, 1, 2], [true, true, true, false]) ∧
     pairTransform [some 0, some 1, some 2, some 100]
        [some 0, some 1, some 2, some 3] 5 = some Transform.id) := by
  constructor
  · intro a b th hlen
    have hfst : (filter_pair a b th).1 = maskSelect a (filter_pair a b th).2.2 := by
      simp only [filter_pair]
      exact filter_fst_eq_maskSelect a th b
    have hsnd : (filter_pair a b th).2.1 = maskSelect b (filter_pair a b th).2.2 := by
      simp only [filter_pair]
      exact filter_snd_eq_maskSelect a th b
    refine ⟨?_, ?_, hfst, hsnd, ?_⟩
    · simp [filter_pair, List.length_zip, hlen]
    · intro i hi
      have hib : i < b.length := hlen ▸ hi
      have hzlen : i < (a.zip b).length := by
        rw [List.length_zip]
        omega
      have hmlen : i < ((a.zip b).map (validPair th)).length := by
        simpa using hzlen
      have hmask : (filter_pair a b th).2.2.getD i false
          = validPair th (a[i], b[i]) := by
        simp only [filter_pair]
        rw [List.getD_eq_getElem _ _ hmlen]
        simp [List.getElem_zip]
      rw [hmask, List.getD_eq_getElem _ _ hi, List.getD_eq_getElem _ _ hib]
      cases ha : a[i] with
      | none => simp [validPair]
      | some x =>
          cases hb : b[i] with
          | none => simp [validPair]
          | some y => simp [validPair, not_le]
    · intro hall
      exact ⟨by rw [hfst]; exact maskSelect_eq_nil _ _ hall,
             by rw [hsnd]; exact maskSelect_eq_nil _ _ hall⟩
  · constructor
    · norm_num [filter_pair, validPair, List.filter, List.filterMap_cons]
    · norm_num [pairTransform, filter_pair, validPair, List.filter,
        List.filterMap_cons, fit_linear, variance, covar, mean, listSum,
        Transform.id]

/-- Witness for C4: the outlier-exclusion contract instantiated at
A = [0,1,2,100], B = [0,1,2,3], threshold 5. -/
theorem filter_pair_contract_witness :
    ((filter_pair [some 0, some 1, some 2, some 100]
        [some 0, some 1, some 2, some 3] 5).2.2.length =
       ([some 0, some 1, some 2, some 100] : Sequence).length ∧
     (∀ i, i < ([some 0, some 1, some 2, some 100] : Sequence).length →
        ((filter_pair [some 0, some 1, some 2, some 100]
            [some 0, some 1, some 2, some 3] 5).2.2.getD i false = false ↔
          (([some 0, some 1, some 2, some 100] : Sequence).getD i none = none ∨
           ([some 0, some 1, some 2, some 3] : Sequence).getD i none = none ∨
           ∃ x y,
             ([some 0, some 1, some 2, some 100] : Sequence).getD i none = some x ∧
             ([some 0, some 1, some 2, some 3] : Sequence).getD i none = some y ∧
             (5 : ℚ) < |x - y|))) ∧
     (filter_pair [some 0, some 1, some 2, some 100]
        [some 0, some 1, some 2, some 3] 5).1 =
       maskSelect [some 0, some 1, some 2, some 100]
         (filter_pair [some 0, some 1, some 2, some 100]
            [some 0, some 1, some 2, some 3] 5).2.2 ∧
     (filter_pair [some 0, some 1, some 2, some 100]
        [some 0, some 1, some 2, some 3] 5).2.1 =
       maskSelect [some 0, some 1, some 2, some 3]
         (filter_pair [some 0, some 1, some 2, some 100]
            [some 0, some 1, some 2, some 3] 5).2.2 ∧
     ((∀ m ∈ (filter_pair [some 0, some 1, some 2, some 100]
          [some 0, some 1, some 2, some 3] 5).2.2, m = false) →
        (filter_pair [some 0, some 1, some 2, some 100]
           [some 0, some 1, some 2, some 3] 5).1 = [] ∧
        (filter_pair [some 0, some 1, some 2, some 100]
           [some 0, some 1, some 2, some 3] 5).2.1 = [])) :=
  filter_pair_contract.1 [some 0, some 1, some 2, some 100]
    [some 0, some 1, some 2, some 3] 5 rfl

/-- C7: in seasonal mode, applying a fitted transform to a source value at
time index t deseasonalizes the input with the source phase mean at
t mod period, applies the linear map, and re-seasonalizes with the target
phase mean at t mod period; the components stored by a successful seasonal
fit are exactly the per-phase means of the two filtered series. -/
theorem seasonal_transform_apply :
    (∀ (tr : Transform) (cx cy : List ℚ) (period : ℕ) (xv : ℚ) (t : ℕ),
       applySeasonal tr cx cy period xv t =
         tr.slope * (xv - cx.getD (t % period) 0) + tr.intercept +
           cy.getD (t % period) 0) ∧
    (∀ (x y : List ℚ) (period : ℕ), 2 * period ≤ x.length →
       (fit_seasonal x y period).2.1 = seasonalComponent x period ∧
       (fit_seasonal x y period).2.2 = seasonalComponent y period) := by
  constructor
  · intro tr cx cy p xv t
    rfl
  · intro x y p h
    have hcond : ¬ x.length < 2 * p := by omega
    constructor <;> simp [fit_seasonal, hcond]

/-- Witness for C7: a concrete seasonal fit stores the phase-mean
components of its inputs. -/
theorem seasonal_transform_apply_witness :
    (fit_seasonal [1, 2] [3, 4] 1).2.1 = seasonalComponent [1, 2] 1 ∧
    (fit_seasonal [1, 2] [3, 4] 1).2.2 = seasonalComponent [3, 4] 1 :=
  seasonal_transform_apply.2 [1, 2] [3, 4] 1 (by norm_num)

/-- C8: an invalid configuration — unknown method name, out-of-range
target index, seasonal mode with a sequence count other than 2, or a
missing/invalid period in seasonal mode — makes both the chain entry point
and the row-wise entry point return a configuration error to the caller,
carrying no partial result. -/
theorem config_errors_raise :
    (∀ (seqs : List Sequence) (target : ℕ) (method : String) (th : ℚ)
       (period : Option ℕ),
       ((method ≠ "linear" ∧ method ≠ "seasonal_decompose") ∨
        seqs.length ≤ target ∨
        (method = "seasonal_decompose" ∧ seqs.length ≠ 2) ∨
        (method = "seasonal_decompose" ∧
          (period = none ∨ ∃ p, period = some p ∧ p < 2))) →
       ∃ msg, chainChecked seqs target method th period = .error msg) ∧
    (∀ (table : List (List Sequence)) (target : ℕ) (method : String) (th : ℚ)
       (period : Option ℕ),
       ((method ≠ "linear" ∧ method ≠ "seasonal_decompose") ∨
        (table.headD []).length ≤ target ∨
        (method = "seasonal_decompose" ∧ (table.headD []).length ≠ 2) ∨
        (method = "seasonal_decompose" ∧
          (period = none ∨ ∃ p, period = some p ∧ p < 2))) →
       ∃ msg, chain_rows_checked table target method th period = .error msg) := by
  constructor
  · intro seqs target method th period h
    simp only [chainChecked]
    split
    · exact ⟨_, rfl⟩
    · split
      · exact ⟨_, rfl⟩
      · split
        · exact ⟨_, rfl⟩
        · split
          · exact ⟨_, rfl⟩
          · rename_i hc1 hc2 hc3 hc4
            exfalso
            rcases h with hbad | hbad | hbad | ⟨hm, hp⟩
            · exact hc1 hbad
            · exact hc2 hbad
            · exact hc3 hbad
            · refine hc4 ⟨hm, ?_⟩
              rcases hp with rfl | ⟨p, rfl, hplt⟩
              · rfl
              · simpa using hplt
  · intro table target method th period h
    simp only [chain_rows_checked]
    split
    · exact ⟨_, rfl⟩
    · split
      · exact ⟨_, rfl⟩
      · split
        · exact ⟨_, rfl⟩
        · split
          · exact ⟨_, rfl⟩
          · rename_i hc1 hc2 hc3 hc4
            exfalso
            rcases h with hbad | hbad | hbad | ⟨hm, hp⟩
            · exact hc1 hbad
            · exact hc2 hbad
            · exact hc3 hbad
            · refine hc4 ⟨hm, ?_⟩
              rcases hp with rfl | ⟨p, rfl, hplt⟩
              · rfl
              · simpa using hplt

/-- Witness for C8: four concrete invalid configurations are all rejected
with an error. -/
theorem config_errors_raise_witness :
    (∃ msg, chainChecked [[some 1]] 0 "bogus" 0 none = .error msg) ∧
    (∃ msg, chainChecked [[some 1]] 5 "linear" 0 none = .error msg) ∧
    (∃ msg, chainChecked [[some 1]] 0 "seasonal_decompose" 0 (some 12) =
       .error msg) ∧
    (∃ msg, chain_rows_checked [[[some 1], [some 2]]] 0 "seasonal_decompose" 0
       none = .error msg) :=
  ⟨config_errors_raise.1 [[some 1]] 0 "bogus" 0 none (Or.inl (by decide)),
   config_errors_raise.1 [[some 1]] 5 "linear" 0 none
     (Or.inr (Or.inl (by decide))),
   config_errors_raise.1 [[some 1]] 0 "seasonal_decompose" 0 (some 12)
     (Or.inr (Or.inr (Or.inl (by decide)))),
   config_errors_raise.2 [[[some 1], [some 2]]] 0 "seasonal_decompose" 0 none
     (Or.inr (Or.inr (Or.inr ⟨rfl, Or.inl rfl⟩)))⟩

/-- C9: the row-wise driver preserves the batch's row count and row order,
every row's result equals running the Chain Composer on that row alone, and
a row's result depends only on that row — so a fit failure in one row
cannot alter any other row. -/
theorem chain_rows_per_row :
    (∀ (table : List (List Sequence)) (target : ℕ) (th : ℚ),
       (chain_rows table target th).length = table.length) ∧
    (∀ (table : List (List Sequence)) (target : ℕ) (th : ℚ) (i : ℕ),
       i < table.length →
       (chain_rows table target th)[i]? =
         some (chain (table.getD i []) target th)) ∧
    (∀ (t1 t2 : List (List Sequence)) (target : ℕ) (th : ℚ) (i : ℕ),
       i < t1.length → i < t2.length → t1.getD i [] = t2.getD i [] →
       (chain_rows t1 target th)[i]? = (chain_rows t2 target th)[i]?) := by
  have hrow : ∀ (table : List (List Sequence)) (target : ℕ) (th : ℚ) (i : ℕ),
      i < table.length →
      (chain_rows table target th)[i]? =
        some (chain (table.getD i []) target th) := by
    intro table target th i hi
    rw [List.getD_eq_getElem _ _ hi]
    simp [chain_rows, List.getElem?_map, List.getElem?_eq_getElem hi]
  refine ⟨?_, hrow, ?_⟩
  · intro table target th
    simp [chain_rows]
  · intro t1 t2 target th i h1 h2 hagree
    rw [hrow t1 target th i h1, hrow t2 target th i h2, hagree]

/-- Witness for C9: in a three-row batch whose middle row has an
all-missing source sequence, that row's slot equals its standalone chain,
which records the undefined sentinel only for the affected sequence, while
a healthy row keeps its defined transforms. -/
theorem chain_rows_per_row_witness :
    (chain_rows [[[some 0, some 1], [some 0, some 2]],
                 [[none, none], [some 0, some 2]],
                 [[some 0, some 2], [some 0, some 1]]] 1 10)[1]? =
      some (chain [[none, none], [some 0, some 2]] 1 10) ∧
    chain [[none, none], [some 0, some 2]] 1 10 = [none, some Transform.id] ∧
    chain [[some 0, some 1], [some 0, some 2]] 1 10 =
      [some ⟨2, 0⟩, some Transform.id] :=
  ⟨chain_rows_per_row.2.1
     [[[some 0, some 1], [some 0, some 2]],
      [[none, none], [some 0, some 2]],
      [[some 0, some 2], [some 0, some 1]]] 1 10 1 (by norm_num),
   by norm_num [chain, List.range_succ, transformToTarget, tLeft, pairTransform,
        filter_pair, validPair, List.filter, List.filterMap_cons, fit_linear,
        variance, covar, mean, listSum, composeOpt, Transform.comp, Transform.id],
   by norm_num [chain, List.range_succ, transformToTarget, tLeft, pairTransform,
        filter_pair, validPair, List.filter, List.filterMap_cons, fit_linear,
        variance, covar, mean, listSum, composeOpt, Transform.comp, Transform.id]⟩

end Pixltsnorm
